import Mathlib

/-!
Verification development for the bt-lab execution middleware:
exchange-rule conformance (src/tools/exchange_rules.py), the deterministic
slippage model (src/tools/slippage.py), fees (src/tools/fees.py), the
execution middleware buy wrapper and the net-PnL analyzer
(src/tools/exec_middleware.py).

Numbers are modelled as exact rationals: the Python code mixes `float` and
`decimal.Decimal`; the Decimal context (28 significant digits) never rounds
at the magnitudes these functions handle, so both are embedded as `ℚ`.
The one place where the textual form of a Decimal matters — `Decimal.quantize`
rounds to the *decimal exponent* of its argument, not to a multiple of its
value — is modelled by carrying that exponent (`stepSizeMktExp`) alongside
the rational value of `stepSizeMkt`.
-/

namespace BtLab

/-- Python `decimal` ROUND_DOWN / `int(...)`: truncation toward zero. -/
def truncToward0 (x : ℚ) : ℤ :=
  if 0 ≤ x then ⌊x⌋ else -⌊-x⌋

/-- Python `decimal` ROUND_HALF_UP: round to nearest, ties away from zero. -/
def roundHalfUpZ (x : ℚ) : ℤ :=
  if 0 ≤ x then ⌊x + 1/2⌋ else -⌊-x + 1/2⌋

/-- Python `decimal` ROUND_HALF_EVEN (default context, used by `quantize`
and by the built-in `round`): round to nearest, ties to even. -/
def roundHalfEvenZ (x : ℚ) : ℤ :=
  let f := ⌊x⌋
  let r := x - f
  if r < 1/2 then f
  else if 1/2 < r then f + 1
  else if f % 2 = 0 then f else f + 1

/-- `Decimal.quantize` to decimal exponent `e` (value is rounded to an
integer multiple of `10^e`, ties to even). -/
def quantize10 (x : ℚ) (e : ℤ) : ℚ :=
  (roundHalfEvenZ (x / (10:ℚ)^e)) * (10:ℚ)^e

/-- Python built-in `round(x, n)`: half-even rounding to `n` decimal places. -/
def pyRound (x : ℚ) (n : ℕ) : ℚ :=
  (roundHalfEvenZ (x * (10:ℚ)^n)) / (10:ℚ)^n

/-- Exchange order sides. The source passes the strings `"buy"` / `"sell"`
and compares `side.lower() == "buy"`: any string other than (case
variants of) `"buy"` is treated as sell, which this two-constructor
type captures. -/
inductive Side where
  | buy
  | sell
deriving DecidableEq

/-- Per-symbol exchange constraints, as parsed by `_parse_symbol_filters`.
All numeric fields are `Decimal` in the source; `stepSizeMktExp` is the
decimal exponent of the `stepSizeMkt` literal (e.g. `"0.00100000"` has
exponent `-8`), which `Decimal.quantize` keys on. -/
structure ExchangeRules where
  tickSize : ℚ
  minQty : ℚ
  maxQty : ℚ
  stepSize : ℚ
  minQtyMkt : ℚ
  maxQtyMkt : ℚ
  stepSizeMkt : ℚ
  stepSizeMktExp : ℤ
  minNotional : ℚ
  applyToMarket : Bool
deriving DecidableEq

/-- `_round_down_to_step`: round `x` down (toward zero) to a multiple of
`step`; a non-positive step leaves `x` unchanged. -/
def _round_down_to_step (x step : ℚ) : ℚ :=
  if step ≤ 0 then x else (truncToward0 (x / step)) * step

/-- `_round_price`: buy side rounds down to the tick, sell side rounds to
the nearest tick (ROUND_HALF_UP); a non-positive tick leaves the price
unchanged. -/
def _round_price (px tick : ℚ) (side : Side) : ℚ :=
  if tick ≤ 0 then px
  else if side = Side.buy then _round_down_to_step px tick
  else (roundHalfUpZ (px / tick)) * tick

/-- Step size applicable to an order type (`order_type == "LIMIT"` selects
the limit lot filter, anything else the market lot filter). -/
def stepFor (r : ExchangeRules) (otype : String) : ℚ :=
  if otype = "LIMIT" then r.stepSize else r.stepSizeMkt

/-- Minimum quantity applicable to an order type. -/
def minQtyFor (r : ExchangeRules) (otype : String) : ℚ :=
  if otype = "LIMIT" then r.minQty else r.minQtyMkt

/-- Maximum quantity applicable to an order type. -/
def maxQtyFor (r : ExchangeRules) (otype : String) : ℚ :=
  if otype = "LIMIT" then r.maxQty else r.maxQtyMkt

/-- The quantity `conform_order` computes before the min-notional raise:
round down to the step, raise to `minQty` when positive and above `q`,
clamp to `maxQty` when positive and below `q`. -/
def clampedQty (r : ExchangeRules) (otype : String) (qty : ℚ) : ℚ :=
  let q0 := _round_down_to_step qty (stepFor r otype)
  let q1 := if 0 < minQtyFor r otype ∧ q0 < minQtyFor r otype then minQtyFor r otype else q0
  if 0 < maxQtyFor r otype ∧ maxQtyFor r otype < q1 then maxQtyFor r otype else q1

/-- Result of `conform_order`: either `(False, {"reason": ...})` or
`(True, {"price": ..., "qty": ..., "notional": ...})`. -/
inductive ConformResult where
  | rejected (reason : String)
  | accepted (price qty notional : ℚ)
deriving DecidableEq

/-- `conform_order`: adjust quantity/price to tick/step, enforce
min/max quantity, and try to reach `minNotional` by raising the quantity
(rounding the required quantity down to the step for LIMIT orders, or
quantizing it to the step's decimal exponent for market orders). -/
def conform_order (r : ExchangeRules) (side : Side) (otype : String)
    (ref_price qty : ℚ) : ConformResult :=
  let px := _round_price ref_price r.tickSize side
  let q := clampedQty r otype qty
  let notional := px * q
  if 0 < r.minNotional ∧ notional < r.minNotional then
    let need0 := r.minNotional / (if 0 < px then px else 1)
    let need := if otype = "LIMIT" then _round_down_to_step need0 (stepFor r otype)
                else quantize10 need0 r.stepSizeMktExp
    if need ≤ 0 then ConformResult.rejected "minNotional_unreachable"
    else ConformResult.accepted px need (px * need)
  else ConformResult.accepted px q notional

/-- Result tuple of `bt_conform_market_order`: `(ok, qty_adj, notional_adj, reason)`. -/
structure BtConformResult where
  ok : Bool
  qty : ℚ
  notional : ℚ
  reason : String
deriving DecidableEq

/-- `bt_conform_market_order`: market-order conformance plus the
caller-supplied notional cap (`adj["notional"] > cap_notional > 0`
rejects with `excede_cap_nueva_orden`). -/
def bt_conform_market_order (r : ExchangeRules) (side : Side)
    (ref_price qty cap_notional : ℚ) : BtConformResult :=
  match conform_order r side "MARKET" ref_price qty with
  | ConformResult.rejected reason => ⟨false, 0, 0, reason⟩
  | ConformResult.accepted _ q n =>
      if n > cap_notional ∧ cap_notional > 0 then ⟨false, 0, 0, "excede_cap_nueva_orden"⟩
      else ⟨true, q, n, ""⟩

/-! ## Fees (src/tools/fees.py) -/

/-- `default_fees_cfg` output: maker/taker/buyhold_in/buyhold_out rates. -/
structure FeesCfg where
  maker : ℚ
  taker : ℚ
  buyhold_in : ℚ
  buyhold_out : ℚ
deriving DecidableEq

/-- `cfg.get(fee_type, 0.0)` on the fees dict: unknown keys yield 0. -/
def FeesCfg.get (c : FeesCfg) (k : String) : ℚ :=
  if k = "maker" then c.maker
  else if k = "taker" then c.taker
  else if k = "buyhold_in" then c.buyhold_in
  else if k = "buyhold_out" then c.buyhold_out
  else 0

/-- `fee_amount(notional, fee_type, cfg) = notional * cfg.get(fee_type, 0.0)`. -/
def fee_amount (notional : ℚ) (fee_type : String) (cfg : FeesCfg) : ℚ :=
  notional * cfg.get fee_type

/-! ## Slippage and latency (src/tools/slippage.py)

A backtrader data feed is embedded as `Bars`: `len` is `len(data)` and the
series are functions on backtrader line indices, where index `0` is the
current bar, `-1` the previous one, `-i` the bar `i` steps back. -/

/-- Backtrader data feed lines, indexed the backtrader way
(`0` = current bar, negative = bars ago). -/
structure Bars where
  len : ℕ
  high : ℤ → ℚ
  low : ℤ → ℚ
  close : ℤ → ℚ
  volume : ℤ → ℚ

/-- Latency configuration (`submit_ms`, `ack_ms`, `fill_ms`). -/
structure LatCfg where
  submit_ms : ℚ
  ack_ms : ℚ
  fill_ms : ℚ
deriving DecidableEq

/-- Slippage configuration; the source reads these keys with
`cfg.get(key, default)`, and a full config dict has all five keys. -/
structure SlipCfg where
  k_vol : ℚ
  k_size : ℚ
  k_lat : ℚ
  min_bps : ℚ
  max_bps : ℚ
deriving DecidableEq

/-- `_atr14_pct_from_data`: ATR(14) estimate as a fraction of the latest
close, clamped to `[0, 0.20]`; returns 0 when fewer than two bars exist. -/
def _atr14_pct_from_data (d : Bars) : ℚ :=
  let n := min d.len 16
  if n < 2 then 0
  else
    let cl := d.close (-1)
    let m := min d.len 15
    let trSum := ((List.range m).map (fun j =>
        let i : ℤ := (j : ℤ) + 1
        let c_prev := if i + 1 ≤ (d.len : ℤ) then d.close (-i - 1) else d.close (-i)
        let h := d.high (-i)
        let l := d.low (-i)
        max (h - l) (max |h - c_prev| |l - c_prev|))).sum
    let atr := trSum / (max m 1 : ℚ)
    let price := max cl (1 / 10^12)
    min (max (atr / price) 0) (1/5)

/-- `_spread_bps_from_bar`: high-low range of the latest bar relative to
its midpoint, scaled by 0.35 and clamped to `[2, 30]` bps. -/
def _spread_bps_from_bar (d : Bars) : ℚ :=
  let hi := d.high (-1)
  let lo := d.low (-1)
  let mid := if 0 < hi + lo then (hi + lo) / 2 else d.close (-1)
  let raw_bps := 10^4 * (hi - lo) / max mid (1 / 10^12)
  min (max (raw_bps * (35/100)) 2) 30

/-- `_size_vs_vol_4h`: order notional relative to the latest bar's quote
volume, clamped to `[0, 1]`. -/
def _size_vs_vol_4h (notional : ℚ) (d : Bars) : ℚ :=
  let px := d.close (-1)
  let vol_base := d.volume (-1)
  let denom := max (px * vol_base) (1 / 10^9)
  min (max (notional / denom) 0) 1

/-- `latency_ms_total`: `int(max(0,submit) + max(0,ack) + max(0,fill))`. -/
def latency_ms_total (c : LatCfg) : ℤ :=
  truncToward0 (max 0 c.submit_ms + max 0 c.ack_ms + max 0 c.fill_ms)

/-- `slip_bps`: deterministic slippage in basis points, clamped to
`[min_bps, max_bps]` as the last step. -/
def slip_bps (_side : Side) (price qty : ℚ) (d : Bars) (lat : LatCfg) (cfg : SlipCfg) : ℚ :=
  let spread_bps := _spread_bps_from_bar d
  let atr_pct := _atr14_pct_from_data d
  let notional := price * qty
  let sz_rel := _size_vs_vol_4h notional d
  let lat_ms := latency_ms_total lat
  let base := (1/2) * spread_bps
  let extra := cfg.k_vol * (atr_pct * 10^4) + cfg.k_size * (sz_rel * 10^4)
      + cfg.k_lat * ((lat_ms : ℚ) / 1000) * (atr_pct * 10^4)
  max cfg.min_bps (min (base + extra) cfg.max_bps)

/-- `apply_slippage`: effective price; buys pay `1 + bps/10^4`, sells
receive `1 - bps/10^4`. -/
def apply_slippage (side : Side) (ref_price qty : ℚ) (d : Bars) (lat : LatCfg)
    (cfg : SlipCfg) : ℚ :=
  let s_bps := slip_bps side ref_price qty d lat cfg
  if side = Side.buy then ref_price * (1 + s_bps / 10^4)
  else ref_price * (1 - s_bps / 10^4)

/-! ## Execution middleware buy wrapper (src/tools/exec_middleware.py)

`buy_wrapper` is embedded per symbol: the rules for the data's symbol, the
fee/slippage/latency configs, the data feed, the requested size and the
broker cash are its inputs; the output is `none` when the order intent is
skipped and `some info` (the metadata attached via `order.addinfo`) when
the order is forwarded to the original `buy`.  Note the source of this
version passes `cap_notional = 0.0` to `bt_conform_market_order`
(the portfolio-percentage cap is disabled; `max_alloc_pct` is unused). -/

/-- Metadata attached to a submitted buy order
(`_px_eff_in`, `_entry_notional`, `_fee_in`, plus the adjusted size). -/
structure BuyInfo where
  qty : ℚ
  px_eff : ℚ
  entry_notional : ℚ
  fee_in : ℚ
deriving DecidableEq

/-- The quantity produced by the first conformance call of `buy_wrapper`. -/
def buyQty1 (rules : ExchangeRules) (d : Bars) (size : ℚ) : ℚ :=
  (bt_conform_market_order rules Side.buy (d.close 0) size 0).qty

/-- The effective price of the first slippage application in `buy_wrapper`. -/
def buyPx1 (rules : ExchangeRules) (slip : SlipCfg) (lat : LatCfg) (d : Bars) (size : ℚ) : ℚ :=
  apply_slippage Side.buy (d.close 0) (buyQty1 rules d size) d lat slip

/-- The effective notional of the initial adjusted order in `buy_wrapper`. -/
def buyNotional1 (rules : ExchangeRules) (slip : SlipCfg) (lat : LatCfg) (d : Bars) (size : ℚ) : ℚ :=
  buyPx1 rules slip lat d size * buyQty1 rules d size

/-- The taker fee on the initial adjusted order in `buy_wrapper`. -/
def buyFee1 (rules : ExchangeRules) (fees : FeesCfg) (slip : SlipCfg) (lat : LatCfg)
    (d : Bars) (size : ℚ) : ℚ :=
  fee_amount (buyNotional1 rules slip lat d size) "taker" fees

/-- `notional_eff + fee_in` for the initial adjusted order in `buy_wrapper`. -/
def buyCost1 (rules : ExchangeRules) (fees : FeesCfg) (slip : SlipCfg) (lat : LatCfg)
    (d : Bars) (size : ℚ) : ℚ :=
  buyNotional1 rules slip lat d size + buyFee1 rules fees slip lat d size

/-- `buy_wrapper`: conform the size, apply slippage and the taker fee, and
scale the size down to the available cash (re-conforming) when the total
cost exceeds `cash + 1e-6`. -/
def buy_wrapper (rules : ExchangeRules) (fees : FeesCfg) (slip : SlipCfg) (lat : LatCfg)
    (d : Bars) (size cash : ℚ) : Option BuyInfo :=
  if size ≤ 0 then none
  else if d.close 0 ≤ 0 then none
  else
    let c1 := bt_conform_market_order rules Side.buy (d.close 0) size 0
    if c1.ok = false ∨ c1.qty ≤ 0 then none
    else
      let px_eff := buyPx1 rules slip lat d size
      let notional_eff := buyNotional1 rules slip lat d size
      let fee_in := buyFee1 rules fees slip lat d size
      let total_cost := buyCost1 rules fees slip lat d size
      if cash + 1/10^6 < total_cost then
        if total_cost ≤ 0 then none
        else
          let scale := cash / total_cost
          if scale ≤ 0 then none
          else
            let c2 := bt_conform_market_order rules Side.buy (d.close 0) (c1.qty * scale) 0
            if c2.ok = false ∨ c2.qty ≤ 0 then none
            else
              let px2 := apply_slippage Side.buy (d.close 0) c2.qty d lat slip
              let n2 := px2 * c2.qty
              let f2 := fee_amount n2 "taker" fees
              if cash + 1/10^6 < n2 + f2 then none
              else some ⟨c2.qty, px2, n2, f2⟩
      else some ⟨c1.qty, px_eff, notional_eff, fee_in⟩

/-! ## Net-PnL analyzer (FeesNetAnalyzer in src/tools/exec_middleware.py)

The analyzer's `self._open` dict is embedded as an association list with
`setdefault`-style insert and `pop`-style erase; `self.rows` is the list of
emitted ClosedTrade records, with every numeric field rounded exactly as
the source rounds it (`round(x, 8)` / `round(x, 2)`). -/

/-- Per-symbol open-position accumulator (the `self._open[sym]` dict). -/
structure Accum where
  entry_notional : ℚ
  fee_in : ℚ
  qty : ℚ
  px_vwap : ℚ
  dt : ℕ
deriving DecidableEq

/-- One emitted ClosedTrade row, fields rounded as in the source dict. -/
structure TradeRow where
  sym : String
  dt_in : ℕ
  px_in : ℚ
  qty : ℚ
  fee_in : ℚ
  dt_out : ℕ
  px_out : ℚ
  fee_out : ℚ
  gross : ℚ
  net : ℚ
deriving DecidableEq

/-- A completed-order notification as seen by `notify_order`: order status,
direction, the executed size/price, the metadata the middleware attached
(0 when absent, matching the `getattr(..., 0.0)` defaults), and the
broker-reported residual position for the symbol. -/
structure OrderFill where
  completed : Bool
  isBuy : Bool
  sym : String
  executed_size : ℚ
  px_exec : ℚ
  px_eff_in : ℚ
  px_eff_out : ℚ
  fee_in : ℚ
  pos_size : ℚ
  dt : ℕ
deriving DecidableEq

/-- The analyzer's `self._open` dict, keyed by symbol. -/
abbrev OpenMap := List (String × Accum)

/-- Dict lookup (first binding for the key). -/
def lookupA (k : String) : OpenMap → Option Accum
  | [] => none
  | (k', v) :: t => if k' = k then some v else lookupA k t

/-- Dict store: replace the first binding for the key, else append. -/
def insertA (k : String) (v : Accum) : OpenMap → OpenMap
  | [] => [(k, v)]
  | (k', v') :: t => if k' = k then (k, v) :: t else (k', v') :: insertA k v t

/-- Dict `pop`: remove the first binding for the key. -/
def eraseA (k : String) : OpenMap → OpenMap
  | [] => []
  | (k', v') :: t => if k' = k then t else (k', v') :: eraseA k t

/-- Analyzer state: emitted rows, open-position accumulators and the
running global fee totals. -/
structure AnalyzerState where
  rows : List TradeRow
  openPos : OpenMap
  total_fee_in : ℚ
  total_fee_out : ℚ
deriving DecidableEq

/-- The analyzer state after `start()`. -/
def analyzerStart : AnalyzerState := ⟨[], [], 0, 0⟩

/-- Buy-fill effective price: `_px_eff_in` when positive, else the
broker's executed price. -/
def buyFillPx (o : OrderFill) : ℚ :=
  if 0 < o.px_eff_in then o.px_eff_in else o.px_exec

/-- Sell-fill effective price: `_px_eff_out` when positive, else the
broker's executed price. -/
def sellFillPx (o : OrderFill) : ℚ :=
  if 0 < o.px_eff_out then o.px_eff_out else o.px_exec

/-- The taker fee the analyzer charges on a sell fill's notional. -/
def sellFillFee (cfg : FeesCfg) (o : OrderFill) : ℚ :=
  fee_amount (sellFillPx o * |o.executed_size|) "taker" cfg

/-- The accumulator stored for `o.sym` after a buy fill: the previous
accumulator (or the fresh zero one from `setdefault`) with the fill's
notional, fee and size added and the VWAP recomputed. -/
def buyAccum (s : AnalyzerState) (o : OrderFill) : Accum :=
  let size := |o.executed_size|
  let notional := buyFillPx o * size
  let b := (lookupA o.sym s.openPos).getD ⟨0, 0, 0, 0, o.dt⟩
  let qty' := b.qty + size
  ⟨b.entry_notional + notional, b.fee_in + o.fee_in, qty',
   if 0 < qty' then (b.entry_notional + notional) / qty' else b.px_vwap, b.dt⟩

/-- The ClosedTrade row emitted when a sell fill flattens the position,
every numeric field rounded as the source rounds it. -/
def closedRow (cfg : FeesCfg) (b : Accum) (o : OrderFill) : TradeRow :=
  let px := sellFillPx o
  let gross := (px - b.px_vwap) * b.qty
  let net := gross - b.fee_in - sellFillFee cfg o
  ⟨o.sym, b.dt, pyRound b.px_vwap 8, pyRound b.qty 8, pyRound b.fee_in 2,
   o.dt, pyRound px 8, pyRound (sellFillFee cfg o) 2, pyRound gross 2, pyRound net 2⟩

/-- `FeesNetAnalyzer.notify_order`: ignore incomplete or zero-size fills;
on a buy fill accumulate into the symbol's accumulator (running VWAP);
on a sell fill accrue the exit fee and, exactly when the broker position
is back to zero and an accumulator exists, pop it and emit one row. -/
def notify_order (cfg : FeesCfg) (s : AnalyzerState) (o : OrderFill) : AnalyzerState :=
  if o.completed = false then s
  else if |o.executed_size| ≤ 0 then s
  else if o.isBuy then
    { s with total_fee_in := s.total_fee_in + o.fee_in,
             openPos := insertA o.sym (buyAccum s o) s.openPos }
  else
    let s' := { s with total_fee_out := s.total_fee_out + sellFillFee cfg o }
    if o.pos_size = 0 then
      match lookupA o.sym s'.openPos with
      | none => s'
      | some b =>
          { s' with openPos := eraseA o.sym s'.openPos,
                    rows := s'.rows ++ [closedRow cfg b o] }
    else s'

/-! ## Basic facts about the rounding helpers -/

/-- `q` is an exact integer multiple of `step`. -/
def IsStepMultiple (q step : ℚ) : Prop := ∃ k : ℤ, q = k * step

theorem truncToward0_of_nonneg {x : ℚ} (hx : 0 ≤ x) : truncToward0 x = ⌊x⌋ := by
  simp [truncToward0, hx]

theorem round_down_step_eq_floor {x step : ℚ} (hx : 0 ≤ x) (hs : 0 < step) :
    _round_down_to_step x step = ⌊x / step⌋ * step := by
  rw [_round_down_to_step, if_neg (not_le.mpr hs),
    truncToward0_of_nonneg (div_nonneg hx hs.le)]

theorem round_down_step_nonneg {x step : ℚ} (hx : 0 ≤ x) (hs : 0 < step) :
    0 ≤ _round_down_to_step x step := by
  rw [round_down_step_eq_floor hx hs]
  have h : (0:ℤ) ≤ ⌊x / step⌋ := Int.floor_nonneg.mpr (div_nonneg hx hs.le)
  have h' : (0:ℚ) ≤ (⌊x / step⌋ : ℚ) := by exact_mod_cast h
  exact mul_nonneg h' hs.le

theorem round_down_step_le {x step : ℚ} (hx : 0 ≤ x) (hs : 0 < step) :
    _round_down_to_step x step ≤ x := by
  rw [round_down_step_eq_floor hx hs]
  have h := Int.floor_le (x / step)
  have h' := mul_le_mul_of_nonneg_right h hs.le
  rwa [div_mul_cancel₀ x hs.ne'] at h'

theorem sub_step_lt_round_down {x step : ℚ} (hx : 0 ≤ x) (hs : 0 < step) :
    x - step < _round_down_to_step x step := by
  rw [round_down_step_eq_floor hx hs]
  have h := Int.sub_one_lt_floor (x / step)
  have h' := mul_lt_mul_of_pos_right h hs
  rw [sub_mul, one_mul, div_mul_cancel₀ x hs.ne'] at h'
  exact h'

theorem round_down_step_nonpos_iff {x step : ℚ} (hx : 0 < x) (hs : 0 < step) :
    _round_down_to_step x step ≤ 0 ↔ x < step := by
  rw [round_down_step_eq_floor hx.le hs]
  have hnn : (0:ℤ) ≤ ⌊x / step⌋ := Int.floor_nonneg.mpr (div_nonneg hx.le hs.le)
  constructor
  · intro h
    have hz : ⌊x / step⌋ = 0 := by
      by_contra hne
      have hpos : (0:ℤ) < ⌊x / step⌋ := lt_of_le_of_ne hnn (Ne.symm hne)
      have hpos' : (0:ℚ) < (⌊x / step⌋ : ℚ) := by exact_mod_cast hpos
      exact absurd h (not_le.mpr (mul_pos hpos' hs))
    have hlt : x / step < 1 := by
      have := (Int.floor_eq_zero_iff.mp hz).2
      simpa using this
    calc x = (x / step) * step := (div_mul_cancel₀ x hs.ne').symm
    _ < 1 * step := mul_lt_mul_of_pos_right hlt hs
    _ = step := one_mul step
  · intro h
    have hlt : x / step < 1 := (div_lt_one hs).mpr h
    have hz : ⌊x / step⌋ = 0 :=
      Int.floor_eq_zero_iff.mpr ⟨div_nonneg hx.le hs.le, hlt⟩
    rw [hz]
    simp

theorem round_down_isStepMultiple (x step : ℚ) (hs : 0 < step) :
    IsStepMultiple (_round_down_to_step x step) step :=
  ⟨truncToward0 (x / step), by rw [_round_down_to_step, if_neg (not_le.mpr hs)]⟩

/-- When the min-notional raise does not trigger, `conform_order` accepts
the tick-rounded price and the clamped quantity. -/
theorem conform_order_no_raise (r : ExchangeRules) (side : Side) (otype : String)
    (ref qty : ℚ)
    (h : r.minNotional ≤ 0 ∨
      r.minNotional ≤ _round_price ref r.tickSize side * clampedQty r otype qty) :
    conform_order r side otype ref qty =
      ConformResult.accepted (_round_price ref r.tickSize side) (clampedQty r otype qty)
        (_round_price ref r.tickSize side * clampedQty r otype qty) := by
  have hcond : ¬ (0 < r.minNotional ∧
      _round_price ref r.tickSize side * clampedQty r otype qty < r.minNotional) := by
    rcases h with h | h
    · rintro ⟨h1, -⟩; exact absurd h1 (not_lt.mpr h)
    · rintro ⟨-, h2⟩; exact absurd h2 (not_lt.mpr h)
  simp only [conform_order, if_neg hcond]

/-- Bounds and step-multiplicity of the clamped quantity, under the
well-formedness assumptions on the rule record. -/
theorem clampedQty_spec (r : ExchangeRules) (otype : String) (qty : ℚ)
    (hstep : 0 < stepFor r otype) (hq : 0 ≤ qty)
    (hminM : IsStepMultiple (minQtyFor r otype) (stepFor r otype))
    (hmaxM : IsStepMultiple (maxQtyFor r otype) (stepFor r otype))
    (hle : minQtyFor r otype ≤ maxQtyFor r otype)
    (hmax : 0 < maxQtyFor r otype) :
    IsStepMultiple (clampedQty r otype qty) (stepFor r otype) ∧
    minQtyFor r otype ≤ clampedQty r otype qty ∧
    clampedQty r otype qty ≤ maxQtyFor r otype := by
  have hq0mul := round_down_isStepMultiple qty (stepFor r otype) hstep
  have hq0nn := round_down_step_nonneg hq hstep
  simp only [clampedQty]
  split_ifs with h1 h2 h3
  · exact absurd hle (not_le.mpr (lt_of_lt_of_le h2.2 (le_refl _)))
  · exact ⟨hminM, le_refl _, hle⟩
  · exact ⟨hmaxM, hle, le_refl _⟩
  · refine ⟨hq0mul, ?_, ?_⟩
    · rcases le_or_lt (minQtyFor r otype) 0 with hm | hm
      · exact le_trans hm hq0nn
      · by_contra hcon
        exact h1 ⟨hm, not_le.mp hcon⟩
    · by_contra hcon
      exact h3 ⟨hmax, not_le.mp hcon⟩

/-- When the min-notional raise triggers on a LIMIT order with a positive
rounded price, `conform_order` reduces to the round-down of
`minNotional / price` to the step. -/
theorem conform_order_raise_limit (r : ExchangeRules) (side : Side) (ref qty : ℚ)
    (hpx : 0 < _round_price ref r.tickSize side)
    (hcond : 0 < r.minNotional ∧
      _round_price ref r.tickSize side * clampedQty r "LIMIT" qty < r.minNotional) :
    conform_order r side "LIMIT" ref qty =
      if _round_down_to_step (r.minNotional / _round_price ref r.tickSize side) r.stepSize ≤ 0
      then ConformResult.rejected "minNotional_unreachable"
      else ConformResult.accepted (_round_price ref r.tickSize side)
        (_round_down_to_step (r.minNotional / _round_price ref r.tickSize side) r.stepSize)
        (_round_price ref r.tickSize side *
          _round_down_to_step (r.minNotional / _round_price ref r.tickSize side) r.stepSize) := by
  simp only [conform_order, if_pos hcond, if_pos hpx, stepFor]
  norm_num

/-- When the rounded price is zero and `minNotional` is positive, the raise
divides by the guard value 1 instead, so `conform_order` reduces to the
round-down of `minNotional` itself to the step, with notional 0 on accept. -/
theorem conform_order_raise_limit_px0 (r : ExchangeRules) (side : Side) (ref qty : ℚ)
    (hpx : _round_price ref r.tickSize side = 0)
    (hmn : 0 < r.minNotional) :
    conform_order r side "LIMIT" ref qty =
      if _round_down_to_step r.minNotional r.stepSize ≤ 0
      then ConformResult.rejected "minNotional_unreachable"
      else ConformResult.accepted 0 (_round_down_to_step r.minNotional r.stepSize) 0 := by
  have hcond : 0 < r.minNotional ∧
      _round_price ref r.tickSize side * clampedQty r "LIMIT" qty < r.minNotional := by
    constructor
    · exact hmn
    · rw [hpx, zero_mul]; exact hmn
  simp only [conform_order, if_pos hcond]
  rw [hpx]
  simp only [lt_irrefl, if_neg (lt_irrefl (0:ℚ)), div_one, zero_mul, stepFor]
  norm_num

/-! ## Concrete inputs used by counterexamples and witnesses -/

/-- Rules with tick disabled, unit market step and no minimum notional. -/
def rulesA : ExchangeRules := ⟨0, 0, 0, 1, 0, 0, 1, 0, 0, true⟩

/-- Rules with unit tick/step, `minQty` 1, `maxQty` 5, `minNotional` 10. -/
def rulesC2 : ExchangeRules := ⟨1, 1, 5, 1, 1, 5, 1, 0, 10, true⟩

/-- Rules with unit tick/step, no quantity bounds, `minNotional` 5. -/
def rulesC3 : ExchangeRules := ⟨1, 0, 0, 1, 0, 0, 1, 0, 5, true⟩

/-- Rules with unit tick/step, no quantity bounds, `minNotional` 10. -/
def rulesC3w : ExchangeRules := ⟨1, 0, 0, 1, 0, 0, 1, 0, 10, true⟩

/-- Rules with unit tick/step, no quantity bounds, `minNotional` 1/2. -/
def rulesC10 : ExchangeRules := ⟨1, 0, 0, 1, 0, 0, 1, 0, 1/2, true⟩

/-- Rules with unit tick/step, no quantity bounds, `minNotional` 2. -/
def rulesC10w : ExchangeRules := ⟨1, 0, 0, 1, 0, 0, 1, 0, 2, true⟩

/-- A single flat bar: high = low = close = 100, volume 1. -/
def barsA : Bars := ⟨1, fun _ => 100, fun _ => 100, fun _ => 100, fun _ => 1⟩

/-- Degenerate slippage config pinning the bps to 0. -/
def slipZero : SlipCfg := ⟨0, 0, 0, 0, 0⟩

/-- The default slippage config (`default_slippage_cfg`). -/
def slipDef : SlipCfg := ⟨35/100, 1/2, 1/10, 1, 80⟩

/-- Zero latency. -/
def latZero : LatCfg := ⟨0, 0, 0⟩

/-- The default latency config (`default_latency_cfg`). -/
def latDef : LatCfg := ⟨120, 80, 200⟩

/-- 0.1% maker/taker fees (`default_fees_cfg()`). -/
def feesK : FeesCfg := ⟨1/1000, 1/1000, 1/1000, 1/1000⟩

/-- Cash half a micro-unit below the 100.1 total cost of the order that
`buy_wrapper rulesA feesK slipZero latZero barsA 1` submits. -/
def cashA : ℚ := 200199999/2000000

/-! ## C2: conform_order quantity quantization and bounds -/

/-- C2 counterexample: with `rulesC2` (step 1, `minQty` 1, `maxQty` 5,
`minNotional` 10), a LIMIT buy of 2 at reference price 1 is accepted with
quantity 10, which exceeds `maxQty` 5: the claimed membership of the
output quantity in the `minQty`-to-`maxQty` range fails on the
min-notional raise path, which never re-checks `maxQty`. -/
theorem conform_qty_bounds_counterexample :
    conform_order rulesC2 Side.buy "LIMIT" 1 2 = ConformResult.accepted 1 10 10 ∧
    ¬ (10 : ℚ) ≤ rulesC2.maxQty := by
  constructor
  · norm_num [conform_order, clampedQty, _round_price, _round_down_to_step, truncToward0,
      roundHalfUpZ, stepFor, minQtyFor, maxQtyFor, rulesC2]
  · norm_num [rulesC2]

/-- C2 (amended): when the applicable step is positive, the requested
quantity is non-negative, `minQty` and `maxQty` are step multiples with
`0 < maxQty` and `minQty ≤ maxQty`, and the min-notional raise does not
trigger, `conform_order` accepts exactly the clamped quantity, which is an
integer multiple of the applicable step and lies within the
`minQty`-to-`maxQty` range. -/
theorem conform_qty_step_and_bounds (r : ExchangeRules) (side : Side) (otype : String)
    (ref qty : ℚ)
    (hstep : 0 < stepFor r otype) (hq : 0 ≤ qty)
    (hminM : IsStepMultiple (minQtyFor r otype) (stepFor r otype))
    (hmaxM : IsStepMultiple (maxQtyFor r otype) (stepFor r otype))
    (hle : minQtyFor r otype ≤ maxQtyFor r otype)
    (hmax : 0 < maxQtyFor r otype)
    (hnoraise : r.minNotional ≤ 0 ∨
      r.minNotional ≤ _round_price ref r.tickSize side * clampedQty r otype qty) :
    conform_order r side otype ref qty =
      ConformResult.accepted (_round_price ref r.tickSize side) (clampedQty r otype qty)
        (_round_price ref r.tickSize side * clampedQty r otype qty) ∧
    IsStepMultiple (clampedQty r otype qty) (stepFor r otype) ∧
    minQtyFor r otype ≤ clampedQty r otype qty ∧
    clampedQty r otype qty ≤ maxQtyFor r otype :=
  ⟨conform_order_no_raise r side otype ref qty hnoraise,
   clampedQty_spec r otype qty hstep hq hminM hmaxM hle hmax⟩

/-- C2 witness: the amended statement at `rulesC2` for a MARKET buy of 2 at
reference price 10 (notional 20 already clears `minNotional` 10, so the
raise does not trigger). -/
theorem conform_qty_step_and_bounds_witness :
    (0 : ℚ) < stepFor rulesC2 "MARKET" ∧
    (conform_order rulesC2 Side.buy "MARKET" 10 2 =
      ConformResult.accepted (_round_price 10 rulesC2.tickSize Side.buy)
        (clampedQty rulesC2 "MARKET" 2)
        (_round_price 10 rulesC2.tickSize Side.buy * clampedQty rulesC2 "MARKET" 2) ∧
    IsStepMultiple (clampedQty rulesC2 "MARKET" 2) (stepFor rulesC2 "MARKET") ∧
    minQtyFor rulesC2 "MARKET" ≤ clampedQty rulesC2 "MARKET" 2 ∧
    clampedQty rulesC2 "MARKET" 2 ≤ maxQtyFor rulesC2 "MARKET") :=
  ⟨by norm_num [stepFor, rulesC2],
   conform_qty_step_and_bounds rulesC2 Side.buy "MARKET" 10 2
     (by norm_num [stepFor, rulesC2]) (by norm_num)
     ⟨1, by norm_num [minQtyFor, stepFor, rulesC2]⟩
     ⟨5, by norm_num [maxQtyFor, stepFor, rulesC2]⟩
     (by norm_num [minQtyFor, maxQtyFor, rulesC2])
     (by norm_num [maxQtyFor, rulesC2])
     (Or.inr (by norm_num [clampedQty, _round_price, _round_down_to_step, truncToward0,
        stepFor, minQtyFor, maxQtyFor, rulesC2]))⟩

/-! ## C3: the buy-side min-notional raise -/

/-- C3 counterexample: with `rulesC3` (`minNotional` 5, unit tick/step),
a LIMIT buy at reference price 10 with requested quantity 0 is rejected
with `minNotional_unreachable`, although a feasible quantity exists: one
step (quantity 1) is a step multiple, clears `minQty`, and has notional
10 ≥ 5.  The claimed reject-only-when-infeasible behaviour fails. -/
theorem conform_min_notional_counterexample :
    conform_order rulesC3 Side.buy "LIMIT" 10 0 =
      ConformResult.rejected "minNotional_unreachable" ∧
    _round_down_to_step 1 rulesC3.stepSize = 1 ∧
    rulesC3.minQty ≤ 1 ∧
    rulesC3.minNotional ≤ _round_price 10 rulesC3.tickSize Side.buy * 1 := by
  refine ⟨?_, ?_, ?_, ?_⟩
  · norm_num [conform_order, clampedQty, _round_price, _round_down_to_step, truncToward0,
      roundHalfUpZ, stepFor, minQtyFor, maxQtyFor, rulesC3]
  · norm_num [_round_down_to_step, truncToward0, rulesC3]
  · norm_num [rulesC3]
  · norm_num [_round_price, _round_down_to_step, truncToward0, rulesC3]

/-- C3 (amended): for a LIMIT buy with positive rounded price and positive
step, when the min-notional raise triggers the code sets the quantity to
`minNotional / price` rounded DOWN to the step: it reports
`minNotional_unreachable` exactly when `minNotional / price < step` (even
when a single step would be feasible), and otherwise accepts a notional
that may undershoot `minNotional`, though by less than `price × step`. -/
theorem conform_min_notional_raise (r : ExchangeRules) (ref qty : ℚ)
    (hstep : 0 < r.stepSize)
    (hpx : 0 < _round_price ref r.tickSize Side.buy)
    (hmn : 0 < r.minNotional)
    (htrig : _round_price ref r.tickSize Side.buy * clampedQty r "LIMIT" qty < r.minNotional) :
    (conform_order r Side.buy "LIMIT" ref qty =
        ConformResult.rejected "minNotional_unreachable" ↔
      r.minNotional / _round_price ref r.tickSize Side.buy < r.stepSize) ∧
    (r.stepSize ≤ r.minNotional / _round_price ref r.tickSize Side.buy →
      conform_order r Side.buy "LIMIT" ref qty =
        ConformResult.accepted (_round_price ref r.tickSize Side.buy)
          (_round_down_to_step (r.minNotional / _round_price ref r.tickSize Side.buy) r.stepSize)
          (_round_price ref r.tickSize Side.buy *
            _round_down_to_step (r.minNotional / _round_price ref r.tickSize Side.buy)
              r.stepSize) ∧
      r.minNotional - _round_price ref r.tickSize Side.buy * r.stepSize <
        _round_price ref r.tickSize Side.buy *
          _round_down_to_step (r.minNotional / _round_price ref r.tickSize Side.buy)
            r.stepSize) := by
  have heq := conform_order_raise_limit r Side.buy ref qty hpx ⟨hmn, htrig⟩
  have hdivpos : 0 < r.minNotional / _round_price ref r.tickSize Side.buy :=
    div_pos hmn hpx
  constructor
  · constructor
    · intro h
      rw [heq] at h
      by_contra hcon
      have hns : ¬ _round_down_to_step
          (r.minNotional / _round_price ref r.tickSize Side.buy) r.stepSize ≤ 0 := by
        rw [round_down_step_nonpos_iff hdivpos hstep]
        exact hcon
      rw [if_neg hns] at h
      exact ConformResult.noConfusion h
    · intro h
      rw [heq, if_pos ((round_down_step_nonpos_iff hdivpos hstep).mpr h)]
  · intro h
    have hns : ¬ _round_down_to_step
        (r.minNotional / _round_price ref r.tickSize Side.buy) r.stepSize ≤ 0 := by
      rw [round_down_step_nonpos_iff hdivpos hstep]
      exact not_lt.mpr h
    constructor
    · rw [heq, if_neg hns]
    · have hb := sub_step_lt_round_down hdivpos.le hstep
      have hb' := mul_lt_mul_of_pos_left hb hpx
      rwa [mul_sub, mul_div_cancel₀ r.minNotional hpx.ne'] at hb'

/-- C3 witness: with `rulesC3w` (`minNotional` 10), a LIMIT buy of 1 at
price 3 triggers the raise (notional 3 < 10); since `1 ≤ 10/3` the raise
succeeds, returning quantity 3 with notional 9, which undershoots the
minimum notional of 10 but exceeds `10 − 3·1 = 7`. -/
theorem conform_min_notional_raise_witness :
    (0 : ℚ) < rulesC3w.stepSize ∧
    (rulesC3w.stepSize ≤ rulesC3w.minNotional / _round_price 3 rulesC3w.tickSize Side.buy →
      conform_order rulesC3w Side.buy "LIMIT" 3 1 =
        ConformResult.accepted (_round_price 3 rulesC3w.tickSize Side.buy)
          (_round_down_to_step (rulesC3w.minNotional / _round_price 3 rulesC3w.tickSize Side.buy)
            rulesC3w.stepSize)
          (_round_price 3 rulesC3w.tickSize Side.buy *
            _round_down_to_step
              (rulesC3w.minNotional / _round_price 3 rulesC3w.tickSize Side.buy)
              rulesC3w.stepSize) ∧
      rulesC3w.minNotional - _round_price 3 rulesC3w.tickSize Side.buy * rulesC3w.stepSize <
        _round_price 3 rulesC3w.tickSize Side.buy *
          _round_down_to_step (rulesC3w.minNotional / _round_price 3 rulesC3w.tickSize Side.buy)
            rulesC3w.stepSize) :=
  ⟨by norm_num [rulesC3w],
   (conform_min_notional_raise rulesC3w 3 1
     (by norm_num [rulesC3w])
     (by norm_num [_round_price, _round_down_to_step, truncToward0, rulesC3w])
     (by norm_num [rulesC3w])
     (by norm_num [clampedQty, _round_price, _round_down_to_step, truncToward0,
        stepFor, minQtyFor, maxQtyFor, rulesC3w])).2⟩

/-! ## C10: totality guards of conform_order -/

/-- C10 counterexample: with `rulesC10` (`minNotional` 1/2, unit step), a
buy whose reference price 1/2 rounds down to tick 0 is NOT accepted with
notional zero — the raise computes `minNotional / 1 = 1/2`, rounds it
down to step 1 giving 0, and rejects with `minNotional_unreachable`. -/
theorem conform_zero_price_counterexample :
    _round_price (1/2) rulesC10.tickSize Side.buy = 0 ∧
    conform_order rulesC10 Side.buy "LIMIT" (1/2) 7 =
      ConformResult.rejected "minNotional_unreachable" := by
  constructor
  · norm_num [_round_price, _round_down_to_step, truncToward0, rulesC10]
  · norm_num [conform_order, clampedQty, _round_price, _round_down_to_step, truncToward0,
      roundHalfUpZ, stepFor, minQtyFor, maxQtyFor, rulesC10]

/-- C10 (amended): `conform_order` is total by construction; a non-positive
tick leaves the price unrounded and a non-positive step leaves the
quantity unrounded; the division in the min-notional raise replaces a
non-positive rounded price by 1; and a buy whose reference price rounds
down to zero returns ok with notional zero PROVIDED the raise still yields
a positive quantity (`minNotional ≤ 0`, or `0 < stepSize ≤ minNotional` so
that `minNotional / 1` survives the step round-down). -/
theorem conform_order_total_guards (r : ExchangeRules) (side : Side) (otype : String)
    (ref qty : ℚ) :
    (r.tickSize ≤ 0 → _round_price ref r.tickSize side = ref) ∧
    (stepFor r otype ≤ 0 → _round_down_to_step qty (stepFor r otype) = qty) ∧
    (_round_price ref r.tickSize Side.buy = 0 → r.minNotional ≤ 0 →
      conform_order r Side.buy "LIMIT" ref qty =
        ConformResult.accepted 0 (clampedQty r "LIMIT" qty) 0) ∧
    (_round_price ref r.tickSize Side.buy = 0 → 0 < r.minNotional →
      0 < r.stepSize → r.stepSize ≤ r.minNotional →
      conform_order r Side.buy "LIMIT" ref qty =
        ConformResult.accepted 0 (_round_down_to_step r.minNotional r.stepSize) 0) := by
  refine ⟨?_, ?_, ?_, ?_⟩
  · intro h
    simp [_round_price, if_pos h]
  · intro h
    simp [_round_down_to_step, if_pos h]
  · intro hpx hmn
    have h := conform_order_no_raise r Side.buy "LIMIT" ref qty (Or.inl hmn)
    rw [hpx, zero_mul] at h
    exact h
  · intro hpx hmn hstep hle
    have heq := conform_order_raise_limit_px0 r Side.buy ref qty hpx hmn
    have hns : ¬ _round_down_to_step r.minNotional r.stepSize ≤ 0 := by
      rw [round_down_step_nonpos_iff hmn hstep]
      exact not_lt.mpr hle
    rw [heq, if_neg hns]

/-- C10 witness: with `rulesC10w` (`minNotional` 2, unit step), the
reference price 1/2 rounds down to 0 and the order is still accepted, with
quantity `round_down(2, 1) = 2` and notional 0. -/
theorem conform_order_total_guards_witness :
    _round_price (1/2) rulesC10w.tickSize Side.buy = 0 ∧
    conform_order rulesC10w Side.buy "LIMIT" (1/2) 7 =
      ConformResult.accepted 0 (_round_down_to_step rulesC10w.minNotional rulesC10w.stepSize) 0 :=
  ⟨by norm_num [_round_price, _round_down_to_step, truncToward0, rulesC10w],
   (conform_order_total_guards rulesC10w Side.buy "LIMIT" (1/2) 7).2.2.2
     (by norm_num [_round_price, _round_down_to_step, truncToward0, rulesC10w])
     (by norm_num [rulesC10w]) (by norm_num [rulesC10w]) (by norm_num [rulesC10w])⟩

/-! ## C4 and C5: the slippage model -/

/-- Slippage config with a negative bps corridor. -/
def slipNeg : SlipCfg := ⟨0, 0, 0, -100, -100⟩

/-- Slippage config whose corridor is inverted (`min_bps` 5 > `max_bps` 2). -/
def slipBad : SlipCfg := ⟨0, 0, 0, 5, 2⟩

/-- C4 counterexample: with config `slipNeg` (`min_bps` = `max_bps` = −100),
a buy at reference price 100 executes at 99 < 100 — slippage benefits the
trader, because nothing in the code keeps the clamped bps non-negative. -/
theorem apply_slippage_adverse_counterexample :
    apply_slippage Side.buy 100 1 barsA latZero slipNeg = 99 ∧ ¬ (100 : ℚ) ≤ 99 := by
  constructor
  · norm_num [apply_slippage, slip_bps, _spread_bps_from_bar, _atr14_pct_from_data,
      _size_vs_vol_4h, latency_ms_total, truncToward0, barsA, latZero, slipNeg,
      max_def, min_def]
  · norm_num

/-- C4 (amended): for every positive reference price, quantity, bar data
and latency config, and every slippage config whose `min_bps` is
non-negative, the effective buy price is at least the reference price and
the effective sell price is at most the reference price. -/
theorem apply_slippage_adverse (price qty : ℚ) (d : Bars) (lat : LatCfg) (cfg : SlipCfg)
    (hp : 0 < price) (hmin : 0 ≤ cfg.min_bps) :
    price ≤ apply_slippage Side.buy price qty d lat cfg ∧
    apply_slippage Side.sell price qty d lat cfg ≤ price := by
  have hbuy : 0 ≤ slip_bps Side.buy price qty d lat cfg := by
    simp only [slip_bps]
    exact le_trans hmin (le_max_left _ _)
  have hsell : 0 ≤ slip_bps Side.sell price qty d lat cfg := by
    simp only [slip_bps]
    exact le_trans hmin (le_max_left _ _)
  constructor
  · simp only [apply_slippage, if_pos rfl]
    have h1 : (1:ℚ) ≤ 1 + slip_bps Side.buy price qty d lat cfg / 10^4 :=
      le_add_of_nonneg_right (div_nonneg hbuy (by norm_num))
    calc price = price * 1 := (mul_one price).symm
    _ ≤ price * (1 + slip_bps Side.buy price qty d lat cfg / 10^4) :=
      mul_le_mul_of_nonneg_left h1 hp.le
  · have hne : (Side.sell = Side.buy) = False := by
      simp
    simp only [apply_slippage, hne, if_false]
    have h1 : 1 - slip_bps Side.sell price qty d lat cfg / 10^4 ≤ 1 :=
      sub_le_self 1 (div_nonneg hsell (by norm_num))
    exact mul_le_of_le_one_right hp.le h1

/-- C4 witness: the amended statement at price 100, quantity 1, the flat
bar feed and the default latency/slippage configs. -/
theorem apply_slippage_adverse_witness :
    ((0:ℚ) < 100 ∧ 0 ≤ slipDef.min_bps) ∧
    (100 ≤ apply_slippage Side.buy 100 1 barsA latDef slipDef ∧
     apply_slippage Side.sell 100 1 barsA latDef slipDef ≤ 100) :=
  ⟨⟨by norm_num, by norm_num [slipDef]⟩,
   apply_slippage_adverse 100 1 barsA latDef slipDef (by norm_num) (by norm_num [slipDef])⟩

/-- C5 counterexample: with config `slipBad` (`min_bps` 5 > `max_bps` 2),
`slip_bps` returns 5, which is not within the (empty) corridor: the final
clamp is `max(min_bps, min(bps, max_bps))`, which exceeds `max_bps`
whenever `min_bps` does. -/
theorem slip_bps_range_counterexample :
    slip_bps Side.buy 100 1 barsA latZero slipBad = 5 ∧ ¬ (5 : ℚ) ≤ slipBad.max_bps := by
  constructor
  · norm_num [slip_bps, _spread_bps_from_bar, _atr14_pct_from_data, _size_vs_vol_4h,
      latency_ms_total, truncToward0, barsA, latZero, slipBad, max_def, min_def]
  · norm_num [slipBad]

/-- C5 (amended): whenever the slippage config's corridor is well formed
(`min_bps ≤ max_bps`), the bps value returned by `slip_bps` lies within
`[min_bps, max_bps]`, for every side, price, quantity, bar data and
latency config. -/
theorem slip_bps_in_range (side : Side) (price qty : ℚ) (d : Bars) (lat : LatCfg)
    (cfg : SlipCfg) (h : cfg.min_bps ≤ cfg.max_bps) :
    cfg.min_bps ≤ slip_bps side price qty d lat cfg ∧
    slip_bps side price qty d lat cfg ≤ cfg.max_bps := by
  constructor
  · simp only [slip_bps]
    exact le_max_left _ _
  · simp only [slip_bps]
    exact max_le h (min_le_right _ _)

/-- C5 witness: the amended statement at the default slippage config
(corridor `[1, 80]`), price 100, quantity 1, flat bars, default latency. -/
theorem slip_bps_in_range_witness :
    slipDef.min_bps ≤ slipDef.max_bps ∧
    (slipDef.min_bps ≤ slip_bps Side.buy 100 1 barsA latDef slipDef ∧
     slip_bps Side.buy 100 1 barsA latDef slipDef ≤ slipDef.max_bps) :=
  ⟨by norm_num [slipDef],
   slip_bps_in_range Side.buy 100 1 barsA latDef slipDef (by norm_num [slipDef])⟩

/-! ## C9: the allocation cap -/

/-- C9 counterexample: the middleware submits a buy of notional 100 (cash
1000) even though, for a portfolio value of 100 and `max_alloc_pct` 1/10,
the claimed cap `portfolioValue × maxAllocPct = 10` would have rejected
it: `bt_conform_market_order` with cap 10 returns
`excede_cap_nueva_orden`, but this version of `buy_wrapper` passes
`cap_notional = 0`, disabling the cap entirely. -/
theorem middleware_cap_counterexample :
    buy_wrapper rulesA feesK slipZero latZero barsA 1 1000 = some ⟨1, 100, 100, 1/10⟩ ∧
    bt_conform_market_order rulesA Side.buy 100 1 (100 * (1/10)) =
      ⟨false, 0, 0, "excede_cap_nueva_orden"⟩ := by
  constructor
  · norm_num [buy_wrapper, buyCost1, buyFee1, buyNotional1, buyPx1, buyQty1,
      bt_conform_market_order, conform_order, clampedQty, _round_price, _round_down_to_step,
      truncToward0, stepFor, minQtyFor, maxQtyFor, apply_slippage, slip_bps,
      _spread_bps_from_bar, _atr14_pct_from_data, _size_vs_vol_4h, latency_ms_total,
      fee_amount, FeesCfg.get, rulesA, feesK, slipZero, latZero, barsA, max_def, min_def]
  · norm_num [bt_conform_market_order, conform_order, clampedQty, _round_price,
      _round_down_to_step, truncToward0, stepFor, minQtyFor, maxQtyFor, rulesA]

/-- C9 (amended): given that market conformance accepted `(p, q, n)`,
`bt_conform_market_order` rejects with `excede_cap_nueva_orden` exactly
when `n` exceeds a positive `cap_notional`, returning quantity 0 rather
than a reduced quantity, and forwards `(q, n)` untouched otherwise.  The
middleware itself calls it with `cap_notional = 0`, which disables the
cap (it never takes the portfolio value or `max_alloc_pct` into account). -/
theorem bt_cap_reject_iff (r : ExchangeRules) (side : Side) (ref qty cap p q n : ℚ)
    (h : conform_order r side "MARKET" ref qty = ConformResult.accepted p q n) :
    bt_conform_market_order r side ref qty cap =
      if n > cap ∧ cap > 0 then ⟨false, 0, 0, "excede_cap_nueva_orden"⟩
      else ⟨true, q, n, ""⟩ := by
  simp only [bt_conform_market_order, h]

/-- C9 witness: with `rulesA`, conformance of a buy of 1 at price 100
accepts notional 100; against cap 10 the helper rejects with
`excede_cap_nueva_orden` and quantity 0. -/
theorem bt_cap_reject_iff_witness :
    bt_conform_market_order rulesA Side.buy 100 1 10 =
      if (100:ℚ) > 10 ∧ (10:ℚ) > 0 then ⟨false, 0, 0, "excede_cap_nueva_orden"⟩
      else ⟨true, 1, 100, ""⟩ :=
  bt_cap_reject_iff rulesA Side.buy 100 1 10 100 1 100
    (by norm_num [conform_order, clampedQty, _round_price, _round_down_to_step,
      truncToward0, stepFor, minQtyFor, maxQtyFor, rulesA])

/-! ## C1: cash sufficiency of submitted buys -/

/-- C1 counterexample: with cash `cashA` (half a micro-unit below the
order's total cost of 100.1), `buy_wrapper` still submits the order —
the cash check tolerates an overdraft of up to 1e-6 — so the effective
notional plus fee strictly exceeds the available cash. -/
theorem buy_submit_cash_counterexample :
    buy_wrapper rulesA feesK slipZero latZero barsA 1 cashA = some ⟨1, 100, 100, 1/10⟩ ∧
    cashA < 100 + 1/10 := by
  constructor
  · norm_num [buy_wrapper, buyCost1, buyFee1, buyNotional1, buyPx1, buyQty1,
      bt_conform_market_order, conform_order, clampedQty, _round_price, _round_down_to_step,
      truncToward0, stepFor, minQtyFor, maxQtyFor, apply_slippage, slip_bps,
      _spread_bps_from_bar, _atr14_pct_from_data, _size_vs_vol_4h, latency_ms_total,
      fee_amount, FeesCfg.get, rulesA, feesK, slipZero, latZero, barsA, cashA,
      max_def, min_def]
  · norm_num [cashA]

/-- C1 (amended): every buy the middleware submits satisfies
`effective notional + entry fee ≤ cash + 1e-6` (a float-tolerance slack,
so cash can go negative by at most 1e-6); and when the initial total cost
exceeds `cash + 1e-6`, the submitted quantity is the re-conformed scaled
quantity `qty₁ × (cash / totalCost₁)` rather than the order being
rejected outright. -/
theorem buy_submit_cash_bound (rules : ExchangeRules) (fees : FeesCfg) (slip : SlipCfg)
    (lat : LatCfg) (d : Bars) (size cash : ℚ) (p : BuyInfo)
    (h : buy_wrapper rules fees slip lat d size cash = some p) :
    p.entry_notional + p.fee_in ≤ cash + 1/10^6 ∧
    (cash + 1/10^6 < buyCost1 rules fees slip lat d size →
      p.qty = (bt_conform_market_order rules Side.buy (d.close 0)
        (buyQty1 rules d size * (cash / buyCost1 rules fees slip lat d size)) 0).qty) := by
  simp only [buy_wrapper] at h
  split_ifs at h with h1 h2 h3 h4 h5 h6 h7 h8
  · -- scaled branch, submitted
    have hp' := Option.some.inj h
    subst hp'
    exact ⟨not_lt.mp h8, fun _ => rfl⟩
  · -- not scaled: total cost within cash + 1e-6
    have hp' := Option.some.inj h
    subst hp'
    exact ⟨not_lt.mp h4, fun hcon => absurd hcon h4⟩

/-- C1 witness: the amended statement at cash 1000, where the order of
quantity 1 and total cost 100.1 is submitted without scaling. -/
theorem buy_submit_cash_bound_witness :
    (⟨1, 100, 100, 1/10⟩ : BuyInfo).entry_notional + (⟨1, 100, 100, 1/10⟩ : BuyInfo).fee_in
        ≤ 1000 + 1/10^6 ∧
    (1000 + 1/10^6 < buyCost1 rulesA feesK slipZero latZero barsA 1 →
      (⟨1, 100, 100, 1/10⟩ : BuyInfo).qty =
        (bt_conform_market_order rulesA Side.buy (barsA.close 0)
          (buyQty1 rulesA barsA 1 * (1000 / buyCost1 rulesA feesK slipZero latZero barsA 1))
          0).qty) :=
  buy_submit_cash_bound rulesA feesK slipZero latZero barsA 1 1000 ⟨1, 100, 100, 1/10⟩
    (by norm_num [buy_wrapper, buyCost1, buyFee1, buyNotional1, buyPx1, buyQty1,
      bt_conform_market_order, conform_order, clampedQty, _round_price, _round_down_to_step,
      truncToward0, stepFor, minQtyFor, maxQtyFor, apply_slippage, slip_bps,
      _spread_bps_from_bar, _atr14_pct_from_data, _size_vs_vol_4h, latency_ms_total,
      fee_amount, FeesCfg.get, rulesA, feesK, slipZero, latZero, barsA, max_def, min_def])

/-! ## Association-list and notify_order branch lemmas -/

theorem mem_insertA (k : String) (v : Accum) :
    ∀ (l : OpenMap) (p : String × Accum), p ∈ insertA k v l → p = (k, v) ∨ p ∈ l
  | [], p, h => by
      rw [insertA] at h
      exact Or.inl (List.mem_singleton.mp h)
  | (k', v') :: t, p, h => by
      by_cases hk : k' = k
      · rw [insertA, if_pos hk] at h
        rcases List.mem_cons.mp h with h | h
        · exact Or.inl h
        · exact Or.inr (List.mem_cons_of_mem _ h)
      · rw [insertA, if_neg hk] at h
        rcases List.mem_cons.mp h with h | h
        · exact Or.inr (h ▸ List.mem_cons_self _ _)
        · rcases mem_insertA k v t p h with h | h
          · exact Or.inl h
          · exact Or.inr (List.mem_cons_of_mem _ h)

theorem mem_eraseA (k : String) :
    ∀ (l : OpenMap) (p : String × Accum), p ∈ eraseA k l → p ∈ l
  | [], p, h => by
      rw [eraseA] at h
      exact absurd h (List.not_mem_nil p)
  | (k', v') :: t, p, h => by
      by_cases hk : k' = k
      · rw [eraseA, if_pos hk] at h
        exact List.mem_cons_of_mem _ h
      · rw [eraseA, if_neg hk] at h
        rcases List.mem_cons.mp h with h | h
        · exact h ▸ List.mem_cons_self _ _
        · exact List.mem_cons_of_mem _ (mem_eraseA k t p h)

theorem lookupA_insertA_self (k : String) (v : Accum) :
    ∀ (l : OpenMap), lookupA k (insertA k v l) = some v
  | [] => by rw [insertA, lookupA, if_pos rfl]
  | (k', v') :: t => by
      by_cases hk : k' = k
      · rw [insertA, if_pos hk, lookupA, if_pos rfl]
      · rw [insertA, if_neg hk, lookupA, if_neg hk]
        exact lookupA_insertA_self k v t

/-- Branch lemma: a completed buy fill of positive size stores the updated
accumulator and accrues the entry fee. -/
theorem notify_order_buy (cfg : FeesCfg) (s : AnalyzerState) (o : OrderFill)
    (hc : o.completed = true) (hs : 0 < |o.executed_size|) (hb : o.isBuy = true) :
    notify_order cfg s o =
      { s with total_fee_in := s.total_fee_in + o.fee_in,
               openPos := insertA o.sym (buyAccum s o) s.openPos } := by
  rw [notify_order, if_neg (by simp [hc]), if_neg (not_le.mpr hs), if_pos hb]

/-- Branch lemma: a completed sell fill of positive size that leaves a
non-zero broker position only accrues the exit fee. -/
theorem notify_order_sell_open (cfg : FeesCfg) (s : AnalyzerState) (o : OrderFill)
    (hc : o.completed = true) (hs : 0 < |o.executed_size|) (hb : o.isBuy = false)
    (hpos : o.pos_size ≠ 0) :
    notify_order cfg s o = { s with total_fee_out := s.total_fee_out + sellFillFee cfg o } := by
  rw [notify_order, if_neg (by simp [hc]), if_neg (not_le.mpr hs), if_neg (by simp [hb])]
  simp only [if_neg hpos]

/-- Branch lemma: a completed sell fill of positive size at broker position
zero with an open accumulator pops it and emits one ClosedTrade row. -/
theorem notify_order_sell_flat (cfg : FeesCfg) (s : AnalyzerState) (o : OrderFill) (b : Accum)
    (hc : o.completed = true) (hs : 0 < |o.executed_size|) (hb : o.isBuy = false)
    (hpos : o.pos_size = 0) (hl : lookupA o.sym s.openPos = some b) :
    notify_order cfg s o =
      { s with total_fee_out := s.total_fee_out + sellFillFee cfg o,
               openPos := eraseA o.sym s.openPos,
               rows := s.rows ++ [closedRow cfg b o] } := by
  rw [notify_order, if_neg (by simp [hc]), if_neg (not_le.mpr hs), if_neg (by simp [hb])]
  simp only [if_pos hpos, hl]

/-- Branch lemma: a completed sell fill at broker position zero with no
open accumulator only accrues the exit fee. -/
theorem notify_order_sell_flat_none (cfg : FeesCfg) (s : AnalyzerState) (o : OrderFill)
    (hc : o.completed = true) (hs : 0 < |o.executed_size|) (hb : o.isBuy = false)
    (hpos : o.pos_size = 0) (hl : lookupA o.sym s.openPos = none) :
    notify_order cfg s o = { s with total_fee_out := s.total_fee_out + sellFillFee cfg o } := by
  rw [notify_order, if_neg (by simp [hc]), if_neg (not_le.mpr hs), if_neg (by simp [hb])]
  simp only [if_pos hpos, hl]

/-- Branch lemma: fills that are not completed, or have zero size, leave
the analyzer state unchanged. -/
theorem notify_order_skip (cfg : FeesCfg) (s : AnalyzerState) (o : OrderFill)
    (h : o.completed = false ∨ |o.executed_size| ≤ 0) :
    notify_order cfg s o = s := by
  rcases h with h | h
  · rw [notify_order, if_pos h]
  · rw [notify_order]
    by_cases hc : o.completed = false
    · rw [if_pos hc]
    · rw [if_neg hc, if_pos h]

/-! ## Concrete fills for the analyzer claims -/

/-- Zero-rate fees. -/
def cfg0 : FeesCfg := ⟨0, 0, 0, 0⟩

/-- 1% taker fees, matching the spec scenario's exit fee of 2.4 on 240. -/
def cfgS : FeesCfg := ⟨1/100, 1/100, 1/100, 1/100⟩

/-- Scenario buy fill: qty 1 at effective 100, fee 1, position after 1. -/
def fillB1 : OrderFill := ⟨true, true, "BTCUSDT", 1, 100, 100, 0, 1, 1, 10⟩

/-- Scenario buy fill: qty 1 at effective 110, fee 1.1, position after 2. -/
def fillB2 : OrderFill := ⟨true, true, "BTCUSDT", 1, 110, 110, 0, 11/10, 2, 11⟩

/-- Scenario sell fill: qty 2 at effective 120, position after 0. -/
def fillS3 : OrderFill := ⟨true, false, "BTCUSDT", 2, 120, 0, 120, 0, 0, 12⟩

/-- Buy fill: qty 2 at effective 100, fee 2, position after 2. -/
def fillB8 : OrderFill := ⟨true, true, "A", 2, 100, 100, 0, 2, 2, 0⟩

/-- Partial-exit sell fill: qty 1 at effective 110, position after 1. -/
def fillS8 : OrderFill := ⟨true, false, "A", 1, 110, 0, 110, 0, 1, 1⟩

/-- Buy fill: qty 1 at effective 100, fee 0.015, position after 1. -/
def fillB6 : OrderFill := ⟨true, true, "A", 1, 100, 100, 0, 3/200, 1, 0⟩

/-- Flattening sell fill: qty 1 at effective 100.03, position after 0. -/
def fillS6 : OrderFill := ⟨true, false, "A", 1, 110, 0, 10003/100, 0, 0, 1⟩

/-! ## C6: net PnL of emitted ClosedTrade rows -/

/-- C6 counterexample: a buy of 1 at 100 with entry fee 0.015, closed by a
sell at 100.03 with zero exit fee, emits a row whose stored net PnL is
0.02 (the half-even 2-decimal rounding of the exact 0.015): the stored
net neither equals stored gross − stored feeIn − stored feeOut
(= 0.03 − 0.02 − 0 = 0.01) nor the exact gross − feeIn − feeOut
(= 0.03 − 0.015 − 0 = 0.015), so the claimed exact identity fails on the
emitted record. -/
theorem closed_trade_net_counterexample :
    (notify_order cfg0 (notify_order cfg0 analyzerStart fillB6) fillS6).rows =
      [⟨"A", 0, 100, 1, 1/50, 1, 10003/100, 0, 3/100, 1/50⟩] ∧
    (1:ℚ)/50 ≠ 3/100 - 1/50 - 0 ∧
    (1:ℚ)/50 ≠ 3/100 - 3/200 - 0 := by
  have h1 : notify_order cfg0 analyzerStart fillB6 =
      ⟨[], [("A", ⟨100, 3/200, 1, 100, 0⟩)], 3/200, 0⟩ := by
    rw [notify_order_buy cfg0 analyzerStart fillB6 rfl (by norm_num [fillB6]) rfl]
    norm_num [analyzerStart, buyAccum, buyFillPx, lookupA, insertA, fillB6]
  have h2 : notify_order cfg0 ⟨[], [("A", ⟨100, 3/200, 1, 100, 0⟩)], 3/200, 0⟩ fillS6 =
      ⟨[⟨"A", 0, 100, 1, 1/50, 1, 10003/100, 0, 3/100, 1/50⟩], [], 3/200, 0⟩ := by
    rw [notify_order_sell_flat cfg0 _ fillS6 ⟨100, 3/200, 1, 100, 0⟩ rfl
      (by norm_num [fillS6]) rfl rfl (by norm_num [lookupA, fillS6])]
    norm_num [closedRow, sellFillPx, sellFillFee, fee_amount, FeesCfg.get, eraseA,
      pyRound, roundHalfEvenZ, cfg0, fillS6]
  rw [h1, h2]
  norm_num

/-- C6 (amended): for every emitted ClosedTrade, net PnL equals gross PnL
minus accumulated entry fee minus exit fee computed EXACTLY on the
unrounded values, and the stored fields are each rounded to 2 (or 8)
decimal places: the stored net is the half-even 2-decimal rounding of
`(exitPx − vwap)·qty − feeIn − feeOut`, and the stored gross the rounding
of `(exitPx − vwap)·qty`.  The identity therefore holds among the stored
fields only up to that rounding. -/
theorem closed_trade_net_pnl (cfg : FeesCfg) (s : AnalyzerState) (o : OrderFill) (b : Accum)
    (hc : o.completed = true) (hs : 0 < |o.executed_size|) (hb : o.isBuy = false)
    (hpos : o.pos_size = 0) (hl : lookupA o.sym s.openPos = some b) :
    (notify_order cfg s o).rows = s.rows ++ [closedRow cfg b o] ∧
    (closedRow cfg b o).gross = pyRound ((sellFillPx o - b.px_vwap) * b.qty) 2 ∧
    (closedRow cfg b o).net =
      pyRound ((sellFillPx o - b.px_vwap) * b.qty - b.fee_in - sellFillFee cfg o) 2 := by
  refine ⟨?_, rfl, rfl⟩
  rw [notify_order_sell_flat cfg s o b hc hs hb hpos hl]

/-- C6 witness: the amended statement at the concrete buy/sell pair used in
the counterexample. -/
theorem closed_trade_net_pnl_witness :
    lookupA fillS6.sym (notify_order cfg0 analyzerStart fillB6).openPos =
      some ⟨100, 3/200, 1, 100, 0⟩ ∧
    ((notify_order cfg0 (notify_order cfg0 analyzerStart fillB6) fillS6).rows =
      (notify_order cfg0 analyzerStart fillB6).rows ++
        [closedRow cfg0 ⟨100, 3/200, 1, 100, 0⟩ fillS6] ∧
    (closedRow cfg0 ⟨100, 3/200, 1, 100, 0⟩ fillS6).gross =
      pyRound ((sellFillPx fillS6 - (100:ℚ)) * 1) 2 ∧
    (closedRow cfg0 ⟨100, 3/200, 1, 100, 0⟩ fillS6).net =
      pyRound ((sellFillPx fillS6 - (100:ℚ)) * 1 - 3/200 - sellFillFee cfg0 fillS6) 2) := by
  have hl : lookupA fillS6.sym (notify_order cfg0 analyzerStart fillB6).openPos =
      some ⟨100, 3/200, 1, 100, 0⟩ := by
    rw [notify_order_buy cfg0 analyzerStart fillB6 rfl (by norm_num [fillB6]) rfl]
    norm_num [analyzerStart, buyAccum, buyFillPx, lookupA, insertA, fillB6, fillS6]
  exact ⟨hl, closed_trade_net_pnl cfg0 (notify_order cfg0 analyzerStart fillB6) fillS6
    ⟨100, 3/200, 1, 100, 0⟩ rfl (by norm_num [fillS6]) rfl rfl hl⟩

/-! ## C7: VWAP cost-basis accumulation -/

/-- The VWAP invariant: every open accumulator with positive quantity has
`px_vwap = entry_notional / qty`. -/
def VwapInv (s : AnalyzerState) : Prop :=
  ∀ p ∈ s.openPos, 0 < (p.2 : Accum).qty → p.2.px_vwap = p.2.entry_notional / p.2.qty

/-- C7: (1) `notify_order` preserves the VWAP invariant — after each buy
fill the accumulator adds the fill's effective notional, fee and quantity
and its VWAP equals accumulated entry notional over accumulated quantity;
(2) the spec scenario — buys 1@100 (fee 1) and 1@110 (fee 1.1), then a
position-zeroing sell 2@120 (fee 2.4 at the 1% taker rate) — yields one
ClosedTrade with VWAP entry 105, gross PnL 30 and net PnL 25.5. -/
theorem vwap_invariant_and_scenario :
    (∀ (cfg : FeesCfg) (s : AnalyzerState) (o : OrderFill),
        VwapInv s → VwapInv (notify_order cfg s o)) ∧
    (notify_order cfgS (notify_order cfgS (notify_order cfgS analyzerStart fillB1) fillB2)
        fillS3).rows =
      [⟨"BTCUSDT", 10, 105, 2, 21/10, 12, 120, 12/5, 30, 51/2⟩] := by
  constructor
  · intro cfg s o hInv
    by_cases hc : o.completed = true
    · rcases le_or_lt |o.executed_size| 0 with hs | hs
      · rw [notify_order_skip cfg s o (Or.inr hs)]
        exact hInv
      · by_cases hb : o.isBuy = true
        · rw [notify_order_buy cfg s o hc hs hb]
          intro p hp hq
          rcases mem_insertA o.sym (buyAccum s o) s.openPos p hp with hpe | hpm
          · subst hpe
            simp only [buyAccum] at hq ⊢
            rw [if_pos hq]
          · exact hInv p hpm hq
        · have hb' : o.isBuy = false := by simpa using hb
          rcases eq_or_ne o.pos_size 0 with hpos | hpos
          · cases hl : lookupA o.sym s.openPos with
            | none =>
                rw [notify_order_sell_flat_none cfg s o hc hs hb' hpos hl]
                intro p hp hq
                exact hInv p hp hq
            | some b =>
                rw [notify_order_sell_flat cfg s o b hc hs hb' hpos hl]
                intro p hp hq
                exact hInv p (mem_eraseA o.sym s.openPos p hp) hq
          · rw [notify_order_sell_open cfg s o hc hs hb' hpos]
            intro p hp hq
            exact hInv p hp hq
    · have hc' : o.completed = false := by simpa using hc
      rw [notify_order_skip cfg s o (Or.inl hc')]
      exact hInv
  · have h1 : notify_order cfgS analyzerStart fillB1 =
        ⟨[], [("BTCUSDT", ⟨100, 1, 1, 100, 10⟩)], 1, 0⟩ := by
      rw [notify_order_buy cfgS analyzerStart fillB1 rfl (by norm_num [fillB1]) rfl]
      norm_num [analyzerStart, buyAccum, buyFillPx, lookupA, insertA, fillB1]
    have h2 : notify_order cfgS ⟨[], [("BTCUSDT", ⟨100, 1, 1, 100, 10⟩)], 1, 0⟩ fillB2 =
        ⟨[], [("BTCUSDT", ⟨210, 21/10, 2, 105, 10⟩)], 21/10, 0⟩ := by
      rw [notify_order_buy cfgS _ fillB2 rfl (by norm_num [fillB2]) rfl]
      norm_num [buyAccum, buyFillPx, lookupA, insertA, fillB2]
    have h3 : notify_order cfgS ⟨[], [("BTCUSDT", ⟨210, 21/10, 2, 105, 10⟩)], 21/10, 0⟩
        fillS3 =
        ⟨[⟨"BTCUSDT", 10, 105, 2, 21/10, 12, 120, 12/5, 30, 51/2⟩], [], 21/10, 12/5⟩ := by
      rw [notify_order_sell_flat cfgS _ fillS3 ⟨210, 21/10, 2, 105, 10⟩ rfl
        (by norm_num [fillS3]) rfl rfl (by norm_num [lookupA, fillS3])]
      norm_num [closedRow, sellFillPx, sellFillFee, fee_amount, FeesCfg.get, eraseA,
        pyRound, roundHalfEvenZ, cfgS, fillS3]
    rw [h1, h2, h3]

/-- C7 witness: the invariant-preservation half applied to a concrete state
holding one accumulator with VWAP 105 = 210/2 and the scenario sell fill. -/
theorem vwap_invariant_witness :
    VwapInv ⟨[], [("X", ⟨210, 21/10, 2, 105, 0⟩)], 0, 0⟩ ∧
    VwapInv (notify_order cfgS ⟨[], [("X", ⟨210, 21/10, 2, 105, 0⟩)], 0, 0⟩ fillS3) := by
  have hw : VwapInv ⟨[], [("X", ⟨210, 21/10, 2, 105, 0⟩)], 0, 0⟩ := by
    intro p hp hq
    rcases List.mem_singleton.mp hp with rfl
    norm_num
  exact ⟨hw, vwap_invariant_and_scenario.1 cfgS _ fillS3 hw⟩

/-! ## C8: partial exits versus flat crossings -/

/-- C8 counterexample: after a buy of 2 (accumulator quantity 2) and a sell
of 1 that leaves broker position 1, the accumulator for the symbol is
UNCHANGED at quantity 2 — not updated proportionally to 1 — and no
ClosedTrade is emitted. -/
theorem partial_exit_counterexample :
    lookupA "A" (notify_order cfg0 (notify_order cfg0 analyzerStart fillB8) fillS8).openPos =
      some ⟨200, 2, 2, 100, 0⟩ ∧
    (notify_order cfg0 (notify_order cfg0 analyzerStart fillB8) fillS8).rows = [] ∧
    (⟨200, 2, 2, 100, 0⟩ : Accum).qty ≠ 2 * (1 / 2) := by
  have h1 : notify_order cfg0 analyzerStart fillB8 =
      ⟨[], [("A", ⟨200, 2, 2, 100, 0⟩)], 2, 0⟩ := by
    rw [notify_order_buy cfg0 analyzerStart fillB8 rfl (by norm_num [fillB8]) rfl]
    norm_num [analyzerStart, buyAccum, buyFillPx, lookupA, insertA, fillB8]
  have h2 : notify_order cfg0 ⟨[], [("A", ⟨200, 2, 2, 100, 0⟩)], 2, 0⟩ fillS8 =
      ⟨[], [("A", ⟨200, 2, 2, 100, 0⟩)], 2, 0⟩ := by
    rw [notify_order_sell_open cfg0 _ fillS8 rfl (by norm_num [fillS8]) rfl
      (by norm_num [fillS8])]
    norm_num [sellFillFee, sellFillPx, fee_amount, FeesCfg.get, cfg0, fillS8]
  rw [h1, h2]
  refine ⟨by norm_num [lookupA], rfl, by norm_num⟩

/-- C8 (amended): on a completed sell fill of positive size, if the broker
position is non-zero the accumulator map and the emitted rows are both
unchanged (the accumulator is NOT reduced proportionally); a ClosedTrade
is emitted exactly on a fill that brings the position to zero while an
accumulator exists, and that accumulator is then removed from the map. -/
theorem sell_fill_accumulator (cfg : FeesCfg) (s : AnalyzerState) (o : OrderFill)
    (hc : o.completed = true) (hs : 0 < |o.executed_size|) (hb : o.isBuy = false) :
    (o.pos_size ≠ 0 → (notify_order cfg s o).openPos = s.openPos ∧
        (notify_order cfg s o).rows = s.rows) ∧
    (∀ b, o.pos_size = 0 → lookupA o.sym s.openPos = some b →
        (notify_order cfg s o).openPos = eraseA o.sym s.openPos ∧
        (notify_order cfg s o).rows = s.rows ++ [closedRow cfg b o]) := by
  constructor
  · intro hpos
    rw [notify_order_sell_open cfg s o hc hs hb hpos]
    exact ⟨rfl, rfl⟩
  · intro b hpos hl
    rw [notify_order_sell_flat cfg s o b hc hs hb hpos hl]
    exact ⟨rfl, rfl⟩

/-- C8 witness: the amended statement at the concrete partial-exit fill on
a state holding the accumulator from the preceding buy of 2. -/
theorem sell_fill_accumulator_witness :
    fillS8.pos_size ≠ 0 ∧
    ((notify_order cfg0 ⟨[], [("A", ⟨200, 2, 2, 100, 0⟩)], 2, 0⟩ fillS8).openPos =
        (⟨[], [("A", ⟨200, 2, 2, 100, 0⟩)], 2, 0⟩ : AnalyzerState).openPos ∧
     (notify_order cfg0 ⟨[], [("A", ⟨200, 2, 2, 100, 0⟩)], 2, 0⟩ fillS8).rows =
        (⟨[], [("A", ⟨200, 2, 2, 100, 0⟩)], 2, 0⟩ : AnalyzerState).rows) := by
  have hpos : fillS8.pos_size ≠ 0 := by norm_num [fillS8]
  exact ⟨hpos,
    (sell_fill_accumulator cfg0 ⟨[], [("A", ⟨200, 2, 2, 100, 0⟩)], 2, 0⟩ fillS8 rfl
      (by norm_num [fillS8]) rfl).1 hpos⟩

end BtLab
